import Mathlib

/-!
# parca-push: the upload pipeline of `cmd/parca-push/main.go`

A shallow embedding of `run`, `grpcConn` and the `perRequestBearerToken`
credential.  The program is one sequential pipeline of calls into the operating
system and into external libraries (file reads, the pprof decoder and encoder,
the gRPC dial and the `WriteRaw` call).  Those calls are the fields of a `World`
record, and every function of the embedding returns, next to its Go result, the
list of calls it made, in order.
-/

namespace ParcaPush

/-! ## Go values -/

/-- A Go `string` or `[]byte` value: a finite sequence of bytes.  The conversion
`string(b)` keeps the bytes, so it is the identity on this type. -/
abbrev GoString := List UInt8

/-- The bytes of a string literal of the source. -/
def str (s : String) : GoString := s.toUTF8.data.toList

/-- A Go `error`: either an error made by a library or the operating system, or
the `wrapError` that `fmt.Errorf` builds for a format ending in `%w`. -/
inductive GoError where
  | external (msg : GoString)
  | wrapError (msg : GoString) (err : GoError)
deriving DecidableEq

deriving instance DecidableEq for Except

/-- The method `Error()` of an error: its message. -/
def GoError.Error : GoError → GoString
  | .external msg => msg
  | .wrapError msg _ => msg

/-- The call `fmt.Errorf(context + "%w", err)`: the message is the context
followed by the message of `err`, and `err` stays reachable by unwrapping. -/
def Errorf (context : GoString) (err : GoError) : GoError :=
  .wrapError (context ++ err.Error) err

/-- A Go `map[string]string`: finitely many entries with pairwise distinct keys.
The order of `entries` is the order in which a `range` loop over the map visits
them in the execution at hand; Go leaves that order unspecified, so a statement
about every map covers every iteration order. -/
abbrev GoMap := AList (fun _ : GoString => GoString)

/-- A `context.Context`, as far as this program looks at it. -/
structure Context where
  cancelled : Bool
deriving DecidableEq

/-! ## Configuration (`flags`, `FlagsRemoteStore`) -/

/-- FlagsRemoteStore provides remote store configuration flags. -/
structure FlagsRemoteStore where
  Address : GoString
  BearerToken : GoString
  BearerTokenFile : GoString
  Insecure : Bool
  InsecureSkipVerify : Bool
deriving DecidableEq

/-- The parsed command line. -/
structure flags where
  Path : GoString
  Labels : GoMap
  Normalized : Bool
  OverrideTimestamp : Bool
  RemoteStore : FlagsRemoteStore

/-! ## The pprof profile record -/

/-- Modelled from the spec: the `ValueType` record of the external pprof library. -/
structure ValueType where
  Typ : GoString
  Unit : GoString
deriving DecidableEq

/-- Modelled from the spec: a sample of the external pprof library, reduced to
the identifiers of its locations and its values. -/
structure Sample where
  Location : List Nat
  Value : List Int
deriving DecidableEq

/-- Modelled from the spec: a mapping of the external pprof library. -/
structure Mapping where
  ID : Nat
  Start : Nat
  Limit : Nat
  Offset : Nat
  File : GoString
deriving DecidableEq

/-- Modelled from the spec: a location of the external pprof library. -/
structure Location where
  ID : Nat
  Mapping : Nat
  Address : Nat
deriving DecidableEq

/-- Modelled from the spec: a function record of the external pprof library. -/
structure Function where
  ID : Nat
  Name : GoString
  Filename : GoString
deriving DecidableEq

/-- Modelled from the spec: the structured profile record `profile.Profile` of
the external pprof library, which is not part of this repository: samples,
mappings, locations, a capture timestamp in nanoseconds (`TimeNanos`, an
`int64`) and the remaining fields of the record. -/
structure Profile where
  SampleType : List ValueType
  DefaultSampleType : GoString
  Sample : List Sample
  Mapping : List Mapping
  Location : List Location
  Function : List Function
  Comments : List GoString
  DropFrames : GoString
  KeepFrames : GoString
  TimeNanos : Int
  DurationNanos : Int
  PeriodType : Option ValueType
  Period : Int
deriving DecidableEq

/-! ## The `WriteRaw` request (`profilestorepb`) -/

/-- A `profilestorepb.Label`. -/
structure Label where
  Name : GoString
  Value : GoString
deriving DecidableEq

/-- A `profilestorepb.LabelSet`. -/
structure LabelSet where
  Labels : List Label
deriving DecidableEq

/-- A `profilestorepb.RawSample`. -/
structure RawSample where
  RawProfile : GoString
deriving DecidableEq

/-- A `profilestorepb.RawProfileSeries`; `Labels` is a pointer in Go, `none`
stands for `nil`. -/
structure RawProfileSeries where
  Labels : Option LabelSet
  Samples : List RawSample
deriving DecidableEq

/-- A `profilestorepb.WriteRawRequest`. -/
structure WriteRawRequest where
  Series : List RawProfileSeries
  Normalized : Bool
deriving DecidableEq

/-! ## Dial options and credentials -/

/-- The `tls.Config` that `grpcConn` fills in. -/
structure tlsConfig where
  InsecureSkipVerify : Bool
deriving DecidableEq

/-- The transport credentials of a channel: `insecure.NewCredentials()` or
`credentials.NewTLS(config)`. -/
inductive TransportCredentials where
  | insecure
  | TLS (config : tlsConfig)
deriving DecidableEq

/-- The per-request credential of the source. -/
structure perRequestBearerToken where
  token : GoString
  insecure : Bool
deriving DecidableEq

/-- The `grpc.DialOption` values that `grpcConn` builds. -/
inductive DialOption where
  | WithUnaryInterceptor
  | WithTransportCredentials (creds : TransportCredentials)
  | WithPerRPCCredentials (creds : perRequestBearerToken)
deriving DecidableEq

/-- A `grpc.ClientConn`: the target and the options it was dialled with. -/
structure ClientConn where
  target : GoString
  opts : List DialOption
deriving DecidableEq

/-! ## The outside world and the calls made into it -/

/-- The operating system and the external libraries, as the program sees them in
one execution: each field is the result of one kind of call. -/
structure World where
  -- The result of `io.ReadAll(os.Stdin)`.
  stdin : Except GoError GoString
  -- The result of `os.ReadFile(name)`.
  readFile : GoString → Except GoError GoString
  -- The error, if any, of `grpc.Dial(target, opts...)`.
  dial : GoString → List DialOption → Option GoError
  -- The result of `profile.ParseData(data)`.
  parseData : GoString → Except GoError Profile
  -- The result of `p.Write(buf)`: the bytes left in the buffer, or an error.
  write : Profile → Except GoError GoString
  -- The value of `time.Now().UnixNano()`.
  now : Int
  -- The error, if any, of the remote call `WriteRaw` on a connection.
  writeRaw : ClientConn → WriteRawRequest → Option GoError

/-- One call into the outside world. -/
inductive Event where
  | ReadFile (name : GoString)
  | ReadAllStdin
  | Dial (target : GoString) (opts : List DialOption)
  | ParseData (data : GoString)
  | ProfileWrite (p : Profile)
  | WriteRaw (conn : ClientConn) (req : WriteRawRequest)
  | Close (conn : ClientConn)
deriving DecidableEq

/-- The requests of the `WriteRaw` calls in a list of calls, in order. -/
def writeRawRequests : List Event → List WriteRawRequest
  | [] => []
  | .WriteRaw _ req :: es => req :: writeRawRequests es
  | _ :: es => writeRawRequests es

/-! ## The program -/

/-- The method `GetRequestMetadata` of `perRequestBearerToken`: the returned map
literal and the returned error (`none` is `nil`). -/
def perRequestBearerToken.GetRequestMetadata (t : perRequestBearerToken)
    (_ctx : Context) (_uri : List GoString) : GoMap × Option GoError :=
  (AList.singleton (str "authorization") (str "Bearer " ++ t.token), none)

/-- The method `RequireTransportSecurity` of `perRequestBearerToken`. -/
def perRequestBearerToken.RequireTransportSecurity (t : perRequestBearerToken) : Bool :=
  !t.insecure

/-- The function `grpcConn`: the calls it makes and the connection or error it
returns.  The metrics registered on `reg` do not influence the result and are
left out; the interceptor they provide is the first dial option. -/
def grpcConn (w : World) (flags : FlagsRemoteStore) :
    List Event × Except GoError ClientConn :=
  let opts : List DialOption := [.WithUnaryInterceptor]
  let opts :=
    if flags.Insecure then
      opts ++ [.WithTransportCredentials .insecure]
    else
      let config : tlsConfig := { InsecureSkipVerify := flags.InsecureSkipVerify }
      opts ++ [.WithTransportCredentials (.TLS config)]
  let opts :=
    if flags.BearerToken ≠ str "" then
      opts ++ [.WithPerRPCCredentials
        { token := flags.BearerToken, insecure := flags.Insecure }]
    else opts
  if flags.BearerTokenFile ≠ str "" then
    match w.readFile flags.BearerTokenFile with
    | .error err =>
      ([.ReadFile flags.BearerTokenFile],
        .error (Errorf (str "failed to read bearer token from file: ") err))
    | .ok b =>
      let opts := opts ++ [.WithPerRPCCredentials
        { token := b, insecure := flags.Insecure }]
      ([.ReadFile flags.BearerTokenFile, .Dial flags.Address opts],
        match w.dial flags.Address opts with
        | some err => .error err
        | none => .ok { target := flags.Address, opts := opts })
  else
    ([.Dial flags.Address opts],
      match w.dial flags.Address opts with
      | some err => .error err
      | none => .ok { target := flags.Address, opts := opts })

/-- The upload task of `run`: the first actor that `run` adds to its group, from
the label loop to the `WriteRaw` call, with the calls it makes and the error it
returns (`none` is `nil`).  The second actor of the group only waits for an
interrupt signal; this is the execution in which none arrives.  The deferred
`conn.Close()` ends the calls of every path that obtained a connection. -/
def run (w : World) (flags : flags) : List Event × Option GoError :=
  let labels : List Label :=
    flags.Labels.entries.foldl
      (fun labels e => labels ++ [{ Name := e.1, Value := e.2 }]) []
  match grpcConn w flags.RemoteStore with
  | (tr, .error err) => (tr, some (Errorf (str "create gRPC connection: ") err))
  | (tr, .ok conn) =>
    let rd : List Event × Except GoError GoString :=
      if flags.Path = str "-" then
        match w.stdin with
        | .error err =>
          ([.ReadAllStdin], .error (Errorf (str "read profile from stdin: ") err))
        | .ok profileContent => ([.ReadAllStdin], .ok profileContent)
      else
        match w.readFile flags.Path with
        | .error err =>
          ([.ReadFile flags.Path], .error (Errorf (str "read profile file: ") err))
        | .ok profileContent => ([.ReadFile flags.Path], .ok profileContent)
    match rd with
    | (tr₁, .error err) => (tr ++ tr₁ ++ [.Close conn], some err)
    | (tr₁, .ok profileContent) =>
      match w.parseData profileContent with
      | .error err =>
        (tr ++ tr₁ ++ [.ParseData profileContent, .Close conn],
          some (Errorf (str "parse pprof profile: ") err))
      | .ok p =>
        let ov : List Event × Except GoError GoString :=
          if flags.OverrideTimestamp then
            let p : Profile := { p with TimeNanos := w.now }
            match w.write p with
            | .error err =>
              ([.ProfileWrite p], .error (Errorf (str "serialize pprof profile: ") err))
            | .ok buf => ([.ProfileWrite p], .ok buf)
          else ([], .ok profileContent)
        match ov with
        | (tr₂, .error err) =>
          (tr ++ tr₁ ++ [.ParseData profileContent] ++ tr₂ ++ [.Close conn], some err)
        | (tr₂, .ok profileContent₁) =>
          let req : WriteRawRequest :=
            { Series := [{
                Labels := some { Labels := labels }
                Samples := [{ RawProfile := profileContent₁ }] }]
              Normalized := flags.Normalized }
          (tr ++ tr₁ ++ [.ParseData profileContent] ++ tr₂ ++ [.WriteRaw conn req, .Close conn],
            match w.writeRaw conn req with
            | some err => some (Errorf (str "write profile: ") err)
            | none => none)

/-! ## Reading the calls of an execution -/

/-- The call that reads the profile source of a configuration. -/
def sourceCall (flags : flags) : Event :=
  if flags.Path = str "-" then .ReadAllStdin else .ReadFile flags.Path

/-- The result of reading the profile source of a configuration in a world. -/
def sourceResult (w : World) (flags : flags) : Except GoError GoString :=
  if flags.Path = str "-" then w.stdin else w.readFile flags.Path

/-- The request that carries the given bytes under a configuration: one series
with the labels of the configuration, in the order of the map, and one sample. -/
def request (flags : flags) (bytes : GoString) : WriteRawRequest :=
  { Series := [{
      Labels := some { Labels := flags.Labels.entries.map fun e => ⟨e.1, e.2⟩ }
      Samples := [{ RawProfile := bytes }] }]
    Normalized := flags.Normalized }

/-- The error that the upload task returns after the `WriteRaw` call. -/
def writeRawError (w : World) (conn : ClientConn) (req : WriteRawRequest) : Option GoError :=
  match w.writeRaw conn req with
  | some err => some (Errorf (str "write profile: ") err)
  | none => none

/-! ## Concrete worlds and configurations -/

/-- An empty profile record captured at time 5. -/
def emptyProfile : Profile :=
  { SampleType := [], DefaultSampleType := [], Sample := [], Mapping := [],
    Location := [], Function := [], Comments := [], DropFrames := [],
    KeepFrames := [], TimeNanos := 5, DurationNanos := 0, PeriodType := none,
    Period := 0 }

/-- A world with one readable file `/tok` holding `abc`, a standard input of
three bytes that decode to `emptyProfile`, a profile file `/bad` whose bytes do
not decode, and a clock that reads 77.  The encoder writes the timestamp of the
record as one byte. -/
def demoWorld : World :=
  { stdin := .ok [1, 2, 3]
    readFile := fun name =>
      if name = str "/tok" then .ok (str "abc")
      else if name = str "/empty" then .ok []
      else if name = str "/bad" then .ok [9, 9]
      else .error (.external (str "no such file"))
    dial := fun _ _ => none
    parseData := fun data =>
      if data = [1, 2, 3] then .ok emptyProfile
      else .error (.external (str "unrecognized profile format"))
    write := fun p => .ok [UInt8.ofNat p.TimeNanos.toNat]
    now := 77
    writeRaw := fun _ _ => none }

/-- A remote store reached over plaintext with the token file `/tok`. -/
def demoStore : FlagsRemoteStore :=
  { Address := str "localhost:7070", BearerToken := str "",
    BearerTokenFile := str "/tok", Insecure := true, InsecureSkipVerify := false }

/-- A configuration that reads the profile from standard input and sends it
with one label, without touching the timestamp. -/
def demoFlags : flags :=
  { Path := str "-", Labels := AList.singleton (str "__name__") (str "process_cpu"),
    Normalized := false, OverrideTimestamp := false, RemoteStore := demoStore }

/-- The demonstration configuration with the timestamp overridden. -/
def overrideFlags : flags := { demoFlags with OverrideTimestamp := true }

/-- A configuration whose profile file `/bad` does not decode, with the
timestamp kept. -/
def badFlags : flags := { demoFlags with Path := str "/bad" }

/-- A configuration whose profile file `/bad` does not decode, with the
timestamp overridden. -/
def badOverrideFlags : flags := { demoFlags with Path := str "/bad", OverrideTimestamp := true }

/-- The connection that the demonstration store is dialled with. -/
def demoConn : ClientConn :=
  { target := str "localhost:7070"
    opts := [.WithUnaryInterceptor, .WithTransportCredentials .insecure,
      .WithPerRPCCredentials ⟨str "abc", true⟩] }

/-! ## The credential -/

/-- C7: for every token, either value of the insecure flag, every context and
every uri list, `GetRequestMetadata` returns a map whose only entry is the key
`authorization` with the value `Bearer ` followed by the token unchanged, and
returns no error. -/
theorem GetRequestMetadata_bearer (t : GoString) (insecure : Bool) (ctx : Context)
    (uri : List GoString) :
    (perRequestBearerToken.GetRequestMetadata ⟨t, insecure⟩ ctx uri).1.entries
        = [⟨str "authorization", str "Bearer " ++ t⟩]
      ∧ (perRequestBearerToken.GetRequestMetadata ⟨t, insecure⟩ ctx uri).1.lookup
          (str "authorization") = some (str "Bearer " ++ t)
      ∧ (perRequestBearerToken.GetRequestMetadata ⟨t, insecure⟩ ctx uri).1.keys
        = [str "authorization"]
      ∧ (perRequestBearerToken.GetRequestMetadata ⟨t, insecure⟩ ctx uri).2 = none := by
  refine ⟨rfl, ?_, rfl, rfl⟩
  simp [perRequestBearerToken.GetRequestMetadata, AList.lookup, AList.singleton]

/-! ## The connection builder -/

/-- The dial options of the dial that `grpcConn` performs: the interceptor, the
transport credentials, the inline token when it is not empty, and the content of
the token file when one is configured. -/
theorem grpcConn_dial_opts (w : World) (flags : FlagsRemoteStore) (target : GoString)
    (opts : List DialOption) (h : Event.Dial target opts ∈ (grpcConn w flags).1) :
    ∃ file : List DialOption,
      opts = [.WithUnaryInterceptor,
          .WithTransportCredentials
            (if flags.Insecure then .insecure else .TLS ⟨flags.InsecureSkipVerify⟩)]
          ++ (if flags.BearerToken = str "" then []
              else [.WithPerRPCCredentials ⟨flags.BearerToken, flags.Insecure⟩])
          ++ file
        ∧ ((flags.BearerTokenFile = str "" ∧ file = []) ∨
            (flags.BearerTokenFile ≠ str "" ∧ ∃ b, w.readFile flags.BearerTokenFile = .ok b
              ∧ file = [.WithPerRPCCredentials ⟨b, flags.Insecure⟩])) := by
  unfold grpcConn at h
  by_cases hf : flags.BearerTokenFile = str ""
  · simp only [hf, ne_eq, not_true_eq_false, if_false, List.mem_singleton,
      Event.Dial.injEq] at h
    obtain ⟨-, rfl⟩ := h
    refine ⟨[], ?_, Or.inl ⟨hf, rfl⟩⟩
    by_cases hi : flags.Insecure = true <;> by_cases ht : flags.BearerToken = str "" <;>
      simp [hi, ht]
  · cases hr : w.readFile flags.BearerTokenFile with
    | error e => simp [hf, hr] at h
    | ok b =>
      simp only [hf, hr, ne_eq, not_false_eq_true, if_true, List.mem_cons,
        List.mem_singleton, Event.Dial.injEq, List.not_mem_nil, or_false, false_or,
        reduceCtorEq] at h
      obtain ⟨-, rfl⟩ := h
      refine ⟨[.WithPerRPCCredentials ⟨b, flags.Insecure⟩], ?_, Or.inr ⟨hf, b, rfl, rfl⟩⟩
      by_cases hi : flags.Insecure = true <;> by_cases ht : flags.BearerToken = str "" <;>
        simp [hi, ht]

/-- C8: in every dial that `grpcConn` performs, each per-request credential among
the options (from the inline token or from the token file) requires transport
security exactly when the insecure flag is not set, which is exactly when the
transport credentials of the channel are TLS rather than plaintext; a credential
that accepts plaintext is therefore only attached next to plaintext transport
credentials, that is, when the insecure flag is set. -/
theorem grpcConn_credential_security (w : World) (flags : FlagsRemoteStore)
    (target : GoString) (opts : List DialOption)
    (h : Event.Dial target opts ∈ (grpcConn w flags).1) :
    (∀ c, DialOption.WithPerRPCCredentials c ∈ opts →
        (c.RequireTransportSecurity = true ↔ flags.Insecure = false))
      ∧ (∀ tc, DialOption.WithTransportCredentials tc ∈ opts →
          tc = if flags.Insecure then .insecure else .TLS ⟨flags.InsecureSkipVerify⟩)
      ∧ ((∃ config, DialOption.WithTransportCredentials (.TLS config) ∈ opts)
          ↔ flags.Insecure = false)
      ∧ (DialOption.WithTransportCredentials .insecure ∈ opts ↔ flags.Insecure = true)
      ∧ (∀ c, DialOption.WithPerRPCCredentials c ∈ opts →
          c.RequireTransportSecurity = false →
            flags.Insecure = true ∧ DialOption.WithTransportCredentials .insecure ∈ opts) := by
  obtain ⟨file, rfl, hfile⟩ := grpcConn_dial_opts w flags target opts h
  have hcred : ∀ c, DialOption.WithPerRPCCredentials c ∈
      [DialOption.WithUnaryInterceptor,
          .WithTransportCredentials
            (if flags.Insecure then .insecure else .TLS ⟨flags.InsecureSkipVerify⟩)]
          ++ (if flags.BearerToken = str "" then []
              else [.WithPerRPCCredentials ⟨flags.BearerToken, flags.Insecure⟩])
          ++ file → c.insecure = flags.Insecure := by
    intro c hc
    rcases hfile with ⟨-, rfl⟩ | ⟨-, b, -, rfl⟩ <;>
      by_cases ht : flags.BearerToken = str "" <;>
      simp [ht] at hc <;> (try rcases hc with rfl | rfl) <;> rfl
  have htc : ∀ tc, DialOption.WithTransportCredentials tc ∈
      [DialOption.WithUnaryInterceptor,
          .WithTransportCredentials
            (if flags.Insecure then .insecure else .TLS ⟨flags.InsecureSkipVerify⟩)]
          ++ (if flags.BearerToken = str "" then []
              else [.WithPerRPCCredentials ⟨flags.BearerToken, flags.Insecure⟩])
          ++ file →
        tc = if flags.Insecure then .insecure else .TLS ⟨flags.InsecureSkipVerify⟩ := by
    intro tc hc
    rcases hfile with ⟨-, rfl⟩ | ⟨-, b, -, rfl⟩ <;>
      by_cases ht : flags.BearerToken = str "" <;>
      simpa [ht] using hc
  have hmem : DialOption.WithTransportCredentials
      (if flags.Insecure then .insecure else .TLS ⟨flags.InsecureSkipVerify⟩) ∈
      [DialOption.WithUnaryInterceptor,
          .WithTransportCredentials
            (if flags.Insecure then .insecure else .TLS ⟨flags.InsecureSkipVerify⟩)]
          ++ (if flags.BearerToken = str "" then []
              else [.WithPerRPCCredentials ⟨flags.BearerToken, flags.Insecure⟩])
          ++ file := by simp
  refine ⟨?_, htc, ?_, ?_, ?_⟩
  · intro c hc
    have := hcred c hc
    cases hi : flags.Insecure <;>
      simp [perRequestBearerToken.RequireTransportSecurity, this, hi]
  · constructor
    · rintro ⟨config, hc⟩
      have := htc _ hc
      cases hi : flags.Insecure <;> simp [hi] at this ⊢
    · intro hi
      refine ⟨⟨flags.InsecureSkipVerify⟩, ?_⟩
      simp [hi]
  · constructor
    · intro hc
      have := htc _ hc
      cases hi : flags.Insecure <;> simp [hi] at this ⊢
    · intro hi
      simp [hi]
  · intro c hc hreq
    have := hcred c hc
    have hi : flags.Insecure = true := by
      cases hi : flags.Insecure <;>
        simp [perRequestBearerToken.RequireTransportSecurity, this, hi] at hreq ⊢
    exact ⟨hi, by simp [hi]⟩

/-- C8, at a concrete input: the plaintext store with the token file `/tok`
dials with one credential, which accepts plaintext. -/
theorem grpcConn_credential_security_witness :
    Event.Dial (str "localhost:7070")
        [.WithUnaryInterceptor, .WithTransportCredentials .insecure,
          .WithPerRPCCredentials ⟨str "abc", true⟩] ∈ (grpcConn demoWorld demoStore).1
      ∧ DialOption.WithTransportCredentials .insecure ∈
        [DialOption.WithUnaryInterceptor, .WithTransportCredentials .insecure,
          .WithPerRPCCredentials ⟨str "abc", true⟩]
      ∧ ∀ c, DialOption.WithPerRPCCredentials c ∈
          [DialOption.WithUnaryInterceptor, .WithTransportCredentials .insecure,
            .WithPerRPCCredentials ⟨str "abc", true⟩] →
          (c.RequireTransportSecurity = true ↔ demoStore.Insecure = false) :=
  ⟨by decide, by decide,
    (grpcConn_credential_security demoWorld demoStore (str "localhost:7070") _
      (by decide)).1⟩

/-- C9: when the bearer-token file is configured (its path is not empty) and
cannot be read, `grpcConn` makes the file read its only call and returns the
error `failed to read bearer token from file: ...` and no connection, so no dial
is performed; the upload task returns that error wrapped as
`create gRPC connection: failed to read bearer token from file: ...`, and has
made no other call: the profile source is not read and no `WriteRaw` request is
issued. -/
theorem run_token_file_unreadable (w : World) (flags : flags) (e : GoError)
    (hf : flags.RemoteStore.BearerTokenFile ≠ str "")
    (hr : w.readFile flags.RemoteStore.BearerTokenFile = .error e) :
    grpcConn w flags.RemoteStore
        = ([.ReadFile flags.RemoteStore.BearerTokenFile],
            .error (Errorf (str "failed to read bearer token from file: ") e))
      ∧ run w flags
        = ([.ReadFile flags.RemoteStore.BearerTokenFile],
            some (Errorf (str "create gRPC connection: ")
              (Errorf (str "failed to read bearer token from file: ") e)))
      ∧ (run w flags).2.map GoError.Error
        = some (str "create gRPC connection: failed to read bearer token from file: "
            ++ e.Error)
      ∧ (∀ target opts, Event.Dial target opts ∉ (run w flags).1)
      ∧ Event.ReadAllStdin ∉ (run w flags).1
      ∧ (run w flags).1.length = 1
      ∧ writeRawRequests (run w flags).1 = [] := by
  have hconn : grpcConn w flags.RemoteStore
      = ([.ReadFile flags.RemoteStore.BearerTokenFile],
          .error (Errorf (str "failed to read bearer token from file: ") e)) := by
    unfold grpcConn
    simp only [ne_eq, hf, not_false_eq_true, if_true, hr]
  have hrun : run w flags
      = ([.ReadFile flags.RemoteStore.BearerTokenFile],
          some (Errorf (str "create gRPC connection: ")
            (Errorf (str "failed to read bearer token from file: ") e))) := by
    unfold run
    simp only [hconn]
  refine ⟨hconn, hrun, ?_, ?_, ?_, ?_, ?_⟩
  · rw [hrun]
    have hs : str "create gRPC connection: failed to read bearer token from file: "
        = str "create gRPC connection: " ++ str "failed to read bearer token from file: " := by
      decide
    simp [Errorf, GoError.Error, hs]
  · intro target opts
    simp [hrun]
  · simp [hrun]
  · simp [hrun]
  · simp [hrun, writeRawRequests]

/-- C9, at a concrete input: the token file `/missing` does not exist. -/
theorem run_token_file_unreadable_witness :
    run demoWorld { demoFlags with
        RemoteStore := { demoStore with BearerTokenFile := str "/missing" } }
      = ([.ReadFile (str "/missing")],
          some (Errorf (str "create gRPC connection: ")
            (Errorf (str "failed to read bearer token from file: ")
              (.external (str "no such file"))))) :=
  (run_token_file_unreadable demoWorld
    { demoFlags with RemoteStore := { demoStore with BearerTokenFile := str "/missing" } }
    (.external (str "no such file")) (by decide) (by decide)).2.1

/-- C10, as stated, fails for the empty string: a token file whose content is
empty makes `grpcConn` attach a credential with the empty token, while the empty
inline token attaches no credential at all. -/
theorem grpcConn_empty_token_file_differs :
    demoWorld.readFile (str "/empty") = .ok (str "")
      ∧ (grpcConn demoWorld
          { demoStore with BearerToken := str "", BearerTokenFile := str "/empty" }).1
        = [.ReadFile (str "/empty"),
            .Dial (str "localhost:7070")
              [.WithUnaryInterceptor, .WithTransportCredentials .insecure,
                .WithPerRPCCredentials ⟨str "", true⟩]]
      ∧ (grpcConn demoWorld
          { demoStore with BearerToken := str "", BearerTokenFile := str "" }).1
        = [.Dial (str "localhost:7070")
              [.WithUnaryInterceptor, .WithTransportCredentials .insecure]] := by
  decide

/-- C10, amended: for every non-empty string `c`, a token file (at a non-empty
path) whose whole content is `c`, with no inline token, makes `grpcConn` dial the
same address with the same options as the inline token `c` with no token file:
the interceptor, the transport credentials and one per-request credential whose
token is exactly `c` and whose insecure flag is the flag of the configuration;
the two calls also return the same result. -/
theorem grpcConn_token_file_as_inline (w : World) (flags : FlagsRemoteStore)
    (path c : GoString) (hc : c ≠ str "") (hp : path ≠ str "")
    (hr : w.readFile path = .ok c) :
    ∃ opts : List DialOption,
      opts = [.WithUnaryInterceptor,
          .WithTransportCredentials
            (if flags.Insecure then .insecure else .TLS ⟨flags.InsecureSkipVerify⟩),
          .WithPerRPCCredentials ⟨c, flags.Insecure⟩]
        ∧ (grpcConn w { flags with BearerToken := str "", BearerTokenFile := path }).1
          = [.ReadFile path, .Dial flags.Address opts]
        ∧ (grpcConn w { flags with BearerToken := c, BearerTokenFile := str "" }).1
          = [.Dial flags.Address opts]
        ∧ (grpcConn w { flags with BearerToken := str "", BearerTokenFile := path }).2
          = (grpcConn w { flags with BearerToken := c, BearerTokenFile := str "" }).2 := by
  refine ⟨_, rfl, ?_, ?_, ?_⟩ <;>
    cases hi : flags.Insecure <;>
    simp [grpcConn, hc, hp, hr, hi]

/-- C10 amended, at a concrete input: the file `/tok` holds `abc`. -/
theorem grpcConn_token_file_as_inline_witness :
    (grpcConn demoWorld
        { demoStore with BearerToken := str "", BearerTokenFile := str "/tok" }).2
      = (grpcConn demoWorld
        { demoStore with BearerToken := str "abc", BearerTokenFile := str "" }).2 := by
  obtain ⟨_, _, _, _, h⟩ :=
    grpcConn_token_file_as_inline demoWorld demoStore (str "/tok") (str "abc")
      (by decide) (by decide) (by decide)
  exact h

/-! ## The upload task, path by path -/

/-- The label loop appends one label per entry of the map, in order. -/
theorem labels_loop (l : List (Sigma fun _ : GoString => GoString)) (init : List Label) :
    l.foldl (fun labels e => labels ++ [({ Name := e.1, Value := e.2 } : Label)]) init
      = init ++ l.map fun e => ⟨e.1, e.2⟩ := by
  induction l generalizing init with
  | nil => simp
  | cons e l ih => simp [ih]

/-- The requests in a concatenation of calls. -/
theorem writeRawRequests_append (es fs : List Event) :
    writeRawRequests (es ++ fs) = writeRawRequests es ++ writeRawRequests fs := by
  induction es with
  | nil => rfl
  | cons e es ih => cases e <;> simp [writeRawRequests, ih]

/-- The connection builder issues no `WriteRaw` request. -/
theorem grpcConn_no_writeRaw (w : World) (flags : FlagsRemoteStore) :
    writeRawRequests (grpcConn w flags).1 = [] := by
  unfold grpcConn
  by_cases hf : flags.BearerTokenFile = str ""
  · simp [hf, writeRawRequests]
  · cases hr : w.readFile flags.BearerTokenFile <;> simp [hf, hr, writeRawRequests]

/-- The upload task when no connection is built. -/
theorem run_conn_error (w : World) (flags : flags) (tr : List Event) (err : GoError)
    (hconn : grpcConn w flags.RemoteStore = (tr, .error err)) :
    run w flags = (tr, some (Errorf (str "create gRPC connection: ") err)) := by
  unfold run
  simp only [hconn]

/-- The upload task when the profile source cannot be read. -/
theorem run_source_error (w : World) (flags : flags) (tr : List Event) (conn : ClientConn)
    (err : GoError) (hconn : grpcConn w flags.RemoteStore = (tr, .ok conn))
    (hsrc : sourceResult w flags = .error err) :
    run w flags = (tr ++ [sourceCall flags, .Close conn],
      some (Errorf (if flags.Path = str "-" then str "read profile from stdin: "
        else str "read profile file: ") err)) := by
  unfold run
  unfold sourceResult at hsrc
  unfold sourceCall
  by_cases hp : flags.Path = str "-"
  · simp only [hp, if_true] at hsrc ⊢
    simp [hconn, hsrc]
  · simp only [hp, if_false] at hsrc ⊢
    simp [hconn, hsrc]

/-- The upload task when the bytes of the profile source do not decode. -/
theorem run_parse_error (w : World) (flags : flags) (tr : List Event) (conn : ClientConn)
    (content : GoString) (err : GoError)
    (hconn : grpcConn w flags.RemoteStore = (tr, .ok conn))
    (hsrc : sourceResult w flags = .ok content)
    (hparse : w.parseData content = .error err) :
    run w flags = (tr ++ [sourceCall flags, .ParseData content, .Close conn],
      some (Errorf (str "parse pprof profile: ") err)) := by
  unfold run
  unfold sourceResult at hsrc
  unfold sourceCall
  by_cases hp : flags.Path = str "-"
  · simp only [hp, if_true] at hsrc ⊢
    simp [hconn, hsrc, hparse]
  · simp only [hp, if_false] at hsrc ⊢
    simp [hconn, hsrc, hparse]

/-- The upload task when the bytes decode and the timestamp is kept. -/
theorem run_keep (w : World) (flags : flags) (tr : List Event) (conn : ClientConn)
    (content : GoString) (p : Profile)
    (hconn : grpcConn w flags.RemoteStore = (tr, .ok conn))
    (hsrc : sourceResult w flags = .ok content)
    (hparse : w.parseData content = .ok p)
    (hov : flags.OverrideTimestamp = false) :
    run w flags = (tr ++ [sourceCall flags, .ParseData content,
        .WriteRaw conn (request flags content), .Close conn],
      writeRawError w conn (request flags content)) := by
  unfold run
  unfold sourceResult at hsrc
  unfold sourceCall writeRawError request
  by_cases hp : flags.Path = str "-"
  · simp only [hp, if_true] at hsrc ⊢
    simp [hconn, hsrc, hparse, hov, labels_loop]
  · simp only [hp, if_false] at hsrc ⊢
    simp [hconn, hsrc, hparse, hov, labels_loop]

/-- The upload task when the timestamp is overridden and the record cannot be
encoded. -/
theorem run_override_error (w : World) (flags : flags) (tr : List Event) (conn : ClientConn)
    (content : GoString) (p : Profile) (err : GoError)
    (hconn : grpcConn w flags.RemoteStore = (tr, .ok conn))
    (hsrc : sourceResult w flags = .ok content)
    (hparse : w.parseData content = .ok p)
    (hov : flags.OverrideTimestamp = true)
    (hwrite : w.write { p with TimeNanos := w.now } = .error err) :
    run w flags = (tr ++ [sourceCall flags, .ParseData content,
        .ProfileWrite { p with TimeNanos := w.now }, .Close conn],
      some (Errorf (str "serialize pprof profile: ") err)) := by
  unfold run
  unfold sourceResult at hsrc
  unfold sourceCall
  by_cases hp : flags.Path = str "-"
  · simp only [hp, if_true] at hsrc ⊢
    simp [hconn, hsrc, hparse, hov, hwrite]
  · simp only [hp, if_false] at hsrc ⊢
    simp [hconn, hsrc, hparse, hov, hwrite]

/-- The upload task when the timestamp is overridden and the record is encoded. -/
theorem run_override (w : World) (flags : flags) (tr : List Event) (conn : ClientConn)
    (content : GoString) (p : Profile) (buf : GoString)
    (hconn : grpcConn w flags.RemoteStore = (tr, .ok conn))
    (hsrc : sourceResult w flags = .ok content)
    (hparse : w.parseData content = .ok p)
    (hov : flags.OverrideTimestamp = true)
    (hwrite : w.write { p with TimeNanos := w.now } = .ok buf) :
    run w flags = (tr ++ [sourceCall flags, .ParseData content,
        .ProfileWrite { p with TimeNanos := w.now },
        .WriteRaw conn (request flags buf), .Close conn],
      writeRawError w conn (request flags buf)) := by
  unfold run
  unfold sourceResult at hsrc
  unfold sourceCall writeRawError request
  by_cases hp : flags.Path = str "-"
  · simp only [hp, if_true] at hsrc ⊢
    simp [hconn, hsrc, hparse, hov, hwrite, labels_loop]
  · simp only [hp, if_false] at hsrc ⊢
    simp [hconn, hsrc, hparse, hov, hwrite, labels_loop]

/-- Every execution of the upload task either issues no request, or built a
connection, read the source, decoded the bytes and issued exactly one request:
with the bytes read when the timestamp is kept, with the bytes of the encoder
when it is overridden. -/
theorem run_requests (w : World) (flags : flags) :
    writeRawRequests (run w flags).1 = [] ∨
      ∃ tr conn content p bytes,
        grpcConn w flags.RemoteStore = (tr, .ok conn)
          ∧ sourceResult w flags = .ok content
          ∧ w.parseData content = .ok p
          ∧ ((flags.OverrideTimestamp = false ∧ bytes = content
                ∧ (run w flags).1 = tr ++ [sourceCall flags, .ParseData content,
                    .WriteRaw conn (request flags bytes), .Close conn])
              ∨ (flags.OverrideTimestamp = true
                ∧ w.write { p with TimeNanos := w.now } = .ok bytes
                ∧ (run w flags).1 = tr ++ [sourceCall flags, .ParseData content,
                    .ProfileWrite { p with TimeNanos := w.now },
                    .WriteRaw conn (request flags bytes), .Close conn]))
          ∧ writeRawRequests (run w flags).1 = [request flags bytes] := by
  have hg := grpcConn_no_writeRaw w flags.RemoteStore
  rcases hconn : grpcConn w flags.RemoteStore with ⟨tr, err | conn⟩
  · left
    rw [run_conn_error w flags tr err hconn]
    simpa [hconn] using hg
  have htr : writeRawRequests tr = [] := by simpa [hconn] using hg
  have hsc : writeRawRequests [sourceCall flags] = [] := by
    unfold sourceCall
    split <;> rfl
  rcases hsrc : sourceResult w flags with err | content
  · left
    rw [run_source_error w flags tr conn err hconn hsrc]
    have : tr ++ [sourceCall flags, Event.Close conn]
        = tr ++ ([sourceCall flags] ++ [Event.Close conn]) := by simp
    simp only [this, writeRawRequests_append, htr, hsc]
    rfl
  rcases hparse : w.parseData content with err | p
  · left
    rw [run_parse_error w flags tr conn content err hconn hsrc hparse]
    have : tr ++ [sourceCall flags, Event.ParseData content, Event.Close conn]
        = tr ++ ([sourceCall flags] ++ [Event.ParseData content, Event.Close conn]) := by simp
    simp only [this, writeRawRequests_append, htr, hsc]
    rfl
  cases hov : flags.OverrideTimestamp
  · right
    have hrun := run_keep w flags tr conn content p hconn hsrc hparse hov
    refine ⟨tr, conn, content, p, content, rfl, rfl, hparse,
      Or.inl ⟨rfl, rfl, by rw [hrun]⟩, ?_⟩
    rw [hrun]
    have : tr ++ [sourceCall flags, Event.ParseData content,
          Event.WriteRaw conn (request flags content), Event.Close conn]
        = tr ++ ([sourceCall flags] ++ [Event.ParseData content,
          Event.WriteRaw conn (request flags content), Event.Close conn]) := by simp
    simp only [this, writeRawRequests_append, htr, hsc]
    rfl
  · rcases hwrite : w.write { p with TimeNanos := w.now } with err | buf
    · left
      rw [run_override_error w flags tr conn content p err hconn hsrc hparse hov hwrite]
      have : tr ++ [sourceCall flags, Event.ParseData content,
            Event.ProfileWrite { p with TimeNanos := w.now }, Event.Close conn]
          = tr ++ ([sourceCall flags] ++ [Event.ParseData content,
            Event.ProfileWrite { p with TimeNanos := w.now }, Event.Close conn]) := by simp
      simp only [this, writeRawRequests_append, htr, hsc]
      rfl
    · right
      have hrun := run_override w flags tr conn content p buf hconn hsrc hparse hov hwrite
      refine ⟨tr, conn, content, p, buf, rfl, rfl, hparse,
        Or.inr ⟨rfl, hwrite, by rw [hrun]⟩, ?_⟩
      rw [hrun]
      have : tr ++ [sourceCall flags, Event.ParseData content,
            Event.ProfileWrite { p with TimeNanos := w.now },
            Event.WriteRaw conn (request flags buf), Event.Close conn]
          = tr ++ ([sourceCall flags] ++ [Event.ParseData content,
            Event.ProfileWrite { p with TimeNanos := w.now },
            Event.WriteRaw conn (request flags buf), Event.Close conn]) := by simp
      simp only [this, writeRawRequests_append, htr, hsc]
      rfl

/-- A request among the calls is a request in the list of requests. -/
theorem mem_writeRawRequests (es : List Event) (conn : ClientConn) (req : WriteRawRequest)
    (h : Event.WriteRaw conn req ∈ es) : req ∈ writeRawRequests es := by
  induction es with
  | nil => simp at h
  | cons e es ih =>
    rcases List.mem_cons.1 h with rfl | h1
    · simp [writeRawRequests]
    · cases e <;> simp [writeRawRequests, ih h1]

/-- The connection builder only reads a file and dials. -/
theorem grpcConn_calls (w : World) (flags : FlagsRemoteStore) (e : Event)
    (h : e ∈ (grpcConn w flags).1) :
    (∃ name, e = .ReadFile name) ∨ ∃ target opts, e = .Dial target opts := by
  unfold grpcConn at h
  by_cases hf : flags.BearerTokenFile = str ""
  · simp only [hf, ne_eq, not_true_eq_false, if_false, List.mem_singleton] at h
    exact Or.inr ⟨_, _, h⟩
  · cases hr : w.readFile flags.BearerTokenFile with
    | error err =>
      simp only [hf, hr, ne_eq, not_false_eq_true, if_true, List.mem_singleton] at h
      exact Or.inl ⟨_, h⟩
    | ok b =>
      simp only [hf, hr, ne_eq, not_false_eq_true, if_true, List.mem_cons,
        List.not_mem_nil, or_false] at h
      rcases h with h | h
      · exact Or.inl ⟨_, h⟩
      · exact Or.inr ⟨_, _, h⟩

/-- A `WriteRaw` call in an execution carries one of its requests, on the
connection that `grpcConn` returned. -/
theorem run_writeRaw_mem (w : World) (flags : flags) (conn : ClientConn)
    (req : WriteRawRequest) (h : Event.WriteRaw conn req ∈ (run w flags).1) :
    ∃ tr content p bytes,
      grpcConn w flags.RemoteStore = (tr, .ok conn)
        ∧ sourceResult w flags = .ok content
        ∧ w.parseData content = .ok p
        ∧ req = request flags bytes
        ∧ ((flags.OverrideTimestamp = false ∧ bytes = content
              ∧ (run w flags).1 = tr ++ [sourceCall flags, .ParseData content,
                  .WriteRaw conn req, .Close conn])
            ∨ (flags.OverrideTimestamp = true
              ∧ w.write { p with TimeNanos := w.now } = .ok bytes
              ∧ (run w flags).1 = tr ++ [sourceCall flags, .ParseData content,
                  .ProfileWrite { p with TimeNanos := w.now },
                  .WriteRaw conn req, .Close conn])) := by
  have hmem := mem_writeRawRequests _ conn req h
  rcases run_requests w flags with hnil | ⟨tr, conn₁, content, p, bytes, hconn, hsrc, hparse, hcase, hreqs⟩
  · simp [hnil] at hmem
  have htr : ∀ e ∈ tr, (∃ name, e = Event.ReadFile name) ∨ ∃ target opts, e = Event.Dial target opts := by
    intro e he
    exact grpcConn_calls w flags.RemoteStore e (by rw [hconn]; exact he)
  have hsc : Event.WriteRaw conn req ≠ sourceCall flags := by
    unfold sourceCall
    split <;> simp
  have hreq : req = request flags bytes := by simpa [hreqs] using hmem
  have hc : conn = conn₁ := by
    rcases hcase with ⟨-, -, hrun⟩ | ⟨-, -, hrun⟩ <;>
    · rw [hrun] at h
      rcases List.mem_append.1 h with h | h
      · rcases htr _ h with ⟨_, h⟩ | ⟨_, _, h⟩ <;> simp at h
      · simp only [List.mem_cons, hsc, List.not_mem_nil, or_false, false_or, reduceCtorEq,
          Event.WriteRaw.injEq] at h
        exact h.1
  subst hc
  subst hreq
  exact ⟨tr, content, p, bytes, hconn, hsrc, hparse, rfl, hcase⟩

/-! ## The claims about the upload task -/

/-- C1: when the timestamp is not overridden, the raw profile of the sample of
every `WriteRaw` request that the upload task issues is, byte for byte, the
result of reading the profile source: standard input when the path is exactly
`-`, the file at the path otherwise.  After the calls of the connection builder
the task reads standard input, and no file, when the path is `-`, and reads the
file at the path otherwise. -/
theorem run_sends_bytes_read (w : World) (flags : flags) (conn : ClientConn)
    (req : WriteRawRequest) (hov : flags.OverrideTimestamp = false)
    (h : Event.WriteRaw conn req ∈ (run w flags).1) :
    ∃ bytes : GoString,
      req.Series.map (fun s => s.Samples.map RawSample.RawProfile) = [[bytes]]
        ∧ (flags.Path = str "-" →
            w.stdin = .ok bytes
              ∧ (run w flags).1 = (grpcConn w flags.RemoteStore).1
                  ++ [.ReadAllStdin, .ParseData bytes, .WriteRaw conn req, .Close conn])
        ∧ (flags.Path ≠ str "-" →
            w.readFile flags.Path = .ok bytes
              ∧ (run w flags).1 = (grpcConn w flags.RemoteStore).1
                  ++ [.ReadFile flags.Path, .ParseData bytes, .WriteRaw conn req,
                    .Close conn]) := by
  obtain ⟨tr, content, p, bytes, hconn, hsrc, -, hreq, hcase⟩ :=
    run_writeRaw_mem w flags conn req h
  rcases hcase with ⟨-, hb, hrun⟩ | ⟨ht, -, -⟩
  · subst hb
    refine ⟨bytes, by simp [hreq, request], ?_, ?_⟩
    · intro hp
      simp only [sourceResult, hp, if_true] at hsrc
      simp only [sourceCall, hp, if_true] at hrun
      exact ⟨hsrc, by rw [hrun, hconn]⟩
    · intro hp
      simp only [sourceResult, hp, if_false] at hsrc
      simp only [sourceCall, hp, if_false] at hrun
      exact ⟨hsrc, by rw [hrun, hconn]⟩
  · rw [hov] at ht
    cases ht

/-- C1, at a concrete input: the profile is read from standard input and sent
as it is. -/
theorem run_sends_bytes_read_witness :
    ∃ bytes : GoString,
      [[([1, 2, 3] : GoString)]] = [[bytes]]
        ∧ (demoFlags.Path = str "-" →
            demoWorld.stdin = .ok bytes
              ∧ (run demoWorld demoFlags).1 = (grpcConn demoWorld demoFlags.RemoteStore).1
                  ++ [.ReadAllStdin, .ParseData bytes,
                    .WriteRaw demoConn
                      (request demoFlags [1, 2, 3]),
                    .Close demoConn])
        ∧ (demoFlags.Path ≠ str "-" →
            demoWorld.readFile demoFlags.Path = .ok bytes
              ∧ (run demoWorld demoFlags).1 = (grpcConn demoWorld demoFlags.RemoteStore).1
                  ++ [.ReadFile demoFlags.Path, .ParseData bytes,
                    .WriteRaw demoConn
                      (request demoFlags [1, 2, 3]),
                    .Close demoConn]) :=
  run_sends_bytes_read demoWorld demoFlags
    demoConn
    (request demoFlags [1, 2, 3]) (by decide) (by decide)

/-- C2: for every world and every configuration (any label map, any profile
bytes, either value of the normalized and override-timestamp flags) the upload
task issues at most one `WriteRaw` request, and every request it issues has a
series list of length one, whose series has a label set and a sample list of
length one. -/
theorem run_one_series_one_sample (w : World) (flags : flags) :
    (writeRawRequests (run w flags).1).length ≤ 1
      ∧ ((run w flags).1.filter fun e => e matches .WriteRaw _ _).length ≤ 1
      ∧ ∀ conn req, Event.WriteRaw conn req ∈ (run w flags).1 →
          req.Series.length = 1
            ∧ ∀ s ∈ req.Series, (∃ ls, s.Labels = some ls) ∧ s.Samples.length = 1 := by
  have hfilter : ∀ es : List Event,
      (es.filter fun e => e matches .WriteRaw _ _).length = (writeRawRequests es).length := by
    intro es
    induction es with
    | nil => rfl
    | cons e es ih => cases e <;> simp [writeRawRequests, List.filter, ih]
  have hlen : (writeRawRequests (run w flags).1).length ≤ 1 := by
    rcases run_requests w flags with hnil | ⟨_, _, _, _, _, _, _, _, _, hreqs⟩
    · simp [hnil]
    · simp [hreqs]
  refine ⟨hlen, by rw [hfilter]; exact hlen, ?_⟩
  intro conn req h
  obtain ⟨_, _, _, bytes, _, _, _, hreq, _⟩ := run_writeRaw_mem w flags conn req h
  subst hreq
  simp [request]

/-- C2, at a concrete input: the one request of the demonstration run. -/
theorem run_one_series_one_sample_witness :
    (request demoFlags [1, 2, 3]).Series.length = 1
      ∧ ∀ s ∈ (request demoFlags [1, 2, 3]).Series,
          (∃ ls, s.Labels = some ls) ∧ s.Samples.length = 1 :=
  (run_one_series_one_sample demoWorld demoFlags).2.2
    demoConn
    (request demoFlags [1, 2, 3]) (by decide)

/-- C3: in every `WriteRaw` request that the upload task issues, the label list
of the one label set has one entry per key of the label map of the
configuration: its length is the number of keys, no name occurs twice, and an
entry with a given name and value is in the list exactly when the map sends that
name to that value.  Any other execution whose label map has the same lookups
sends a permutation of the same list: only the order may vary. -/
theorem run_labels (w : World) (flags : flags) (conn : ClientConn) (req : WriteRawRequest)
    (h : Event.WriteRaw conn req ∈ (run w flags).1) :
    ∃ s ls, req.Series = [s] ∧ s.Labels = some ls
      ∧ ls.Labels.length = flags.Labels.keys.length
      ∧ (ls.Labels.map Label.Name).Nodup
      ∧ (∀ name value, (⟨name, value⟩ : Label) ∈ ls.Labels
          ↔ flags.Labels.lookup name = some value)
      ∧ ∀ (w₁ : World) (flags₁ : ParcaPush.flags) (conn₁ : ClientConn)
          (req₁ : WriteRawRequest),
          (∀ name, flags₁.Labels.lookup name = flags.Labels.lookup name) →
          Event.WriteRaw conn₁ req₁ ∈ (run w₁ flags₁).1 →
          ∃ s₁ ls₁, req₁.Series = [s₁] ∧ s₁.Labels = some ls₁
            ∧ ls₁.Labels.Perm ls.Labels := by
  obtain ⟨_, _, _, bytes, _, _, _, hreq, _⟩ := run_writeRaw_mem w flags conn req h
  subst hreq
  refine ⟨_, _, rfl, rfl, ?_, ?_, ?_, ?_⟩
  · simp [AList.keys, List.keys]
  · have : (flags.Labels.entries.map fun e => (⟨e.1, e.2⟩ : Label)).map Label.Name
        = flags.Labels.keys := by
      simp [AList.keys, List.keys, List.map_map, Function.comp_def]
    rw [this]
    exact flags.Labels.keys_nodup
  · intro name value
    rw [← Option.mem_def, AList.mem_lookup_iff]
    simp only [List.mem_map, Label.mk.injEq]
    constructor
    · rintro ⟨⟨k, v⟩, he, rfl, rfl⟩
      exact he
    · intro he
      exact ⟨⟨name, value⟩, he, rfl, rfl⟩
  · intro w₁ flags₁ conn₁ req₁ hlook h₁
    obtain ⟨_, _, _, bytes₁, _, _, _, hreq₁, _⟩ := run_writeRaw_mem w₁ flags₁ conn₁ req₁ h₁
    subst hreq₁
    refine ⟨_, _, rfl, rfl, ?_⟩
    apply List.Perm.map
    apply List.lookup_ext flags₁.Labels.nodupKeys flags.Labels.nodupKeys
    intro x y
    have := hlook x
    simp only [AList.lookup] at this
    rw [this]

/-- C3, at a concrete input: the one label of the demonstration run. -/
theorem run_labels_witness :
    ∃ s ls, (request demoFlags [1, 2, 3]).Series = [s] ∧ s.Labels = some ls
      ∧ ls.Labels.length = demoFlags.Labels.keys.length
      ∧ (ls.Labels.map Label.Name).Nodup
      ∧ ∀ name value, (⟨name, value⟩ : Label) ∈ ls.Labels
          ↔ demoFlags.Labels.lookup name = some value := by
  obtain ⟨s, ls, h₁, h₂, h₃, h₄, h₅, -⟩ :=
    run_labels demoWorld demoFlags
      demoConn
      (request demoFlags [1, 2, 3]) (by decide)
  exact ⟨s, ls, h₁, h₂, h₃, h₄, h₅⟩

/-- C4: when the timestamp is overridden and the bytes read decode to a record
`p`, the record handed to the encoder is `p` with `TimeNanos` set to the clock
reading `time.Now().UnixNano()` and every other field (samples, mappings,
locations and the rest) as in `p`; it is the only record encoded.  When the
encoder returns bytes, the task issues exactly one request and its sample holds
exactly those bytes; and every request the task issues holds the encoding of that
record. -/
theorem run_override_timestamp (w : World) (flags : flags) (tr : List Event)
    (conn : ClientConn) (content : GoString) (p : Profile)
    (hov : flags.OverrideTimestamp = true)
    (hconn : grpcConn w flags.RemoteStore = (tr, .ok conn))
    (hsrc : sourceResult w flags = .ok content)
    (hparse : w.parseData content = .ok p) :
    (∃ q, Event.ProfileWrite q ∈ (run w flags).1)
      ∧ (∀ q, Event.ProfileWrite q ∈ (run w flags).1 →
          q.TimeNanos = w.now
            ∧ q.SampleType = p.SampleType ∧ q.DefaultSampleType = p.DefaultSampleType
            ∧ q.Sample = p.Sample ∧ q.Mapping = p.Mapping ∧ q.Location = p.Location
            ∧ q.Function = p.Function ∧ q.Comments = p.Comments
            ∧ q.DropFrames = p.DropFrames ∧ q.KeepFrames = p.KeepFrames
            ∧ q.DurationNanos = p.DurationNanos ∧ q.PeriodType = p.PeriodType
            ∧ q.Period = p.Period
            ∧ (∀ buf, w.write q = .ok buf →
                writeRawRequests (run w flags).1 = [request flags buf])
            ∧ (∀ conn₁ req, Event.WriteRaw conn₁ req ∈ (run w flags).1 →
                ∃ buf, w.write q = .ok buf
                  ∧ req.Series.map (fun s => s.Samples.map RawSample.RawProfile)
                    = [[buf]])) := by
  have htr : ∀ q, Event.ProfileWrite q ∉ tr := by
    intro q hq
    rcases grpcConn_calls w flags.RemoteStore _ (by rw [hconn]; exact hq) with
      ⟨_, h⟩ | ⟨_, _, h⟩ <;> cases h
  have hsc : ∀ q, Event.ProfileWrite q ≠ sourceCall flags := by
    intro q
    unfold sourceCall
    split <;> simp
  have hmem : ∀ q, Event.ProfileWrite q ∈ (run w flags).1 →
      q = { p with TimeNanos := w.now } := by
    intro q hq
    rcases hwrite : w.write { p with TimeNanos := w.now } with err | buf
    · rw [run_override_error w flags tr conn content p err hconn hsrc hparse hov hwrite] at hq
      simpa [htr, hsc] using hq
    · rw [run_override w flags tr conn content p buf hconn hsrc hparse hov hwrite] at hq
      simpa [htr, hsc] using hq
  constructor
  · refine ⟨{ p with TimeNanos := w.now }, ?_⟩
    rcases hwrite : w.write { p with TimeNanos := w.now } with err | buf
    · rw [run_override_error w flags tr conn content p err hconn hsrc hparse hov hwrite]
      simp
    · rw [run_override w flags tr conn content p buf hconn hsrc hparse hov hwrite]
      simp
  · intro q hq
    have hq := hmem q hq
    subst hq
    refine ⟨rfl, rfl, rfl, rfl, rfl, rfl, rfl, rfl, rfl, rfl, rfl, rfl, rfl, ?_, ?_⟩
    · intro buf hwrite
      rcases run_requests w flags with hnil
        | ⟨tr₁, conn₁, content₁, p₁, bytes, hconn₁, hsrc₁, hparse₁, hcase, hreqs⟩
      · rw [run_override w flags tr conn content p buf hconn hsrc hparse hov hwrite] at hnil
        have hm := mem_writeRawRequests
          (tr ++ [sourceCall flags, Event.ParseData content,
            Event.ProfileWrite { p with TimeNanos := w.now },
            Event.WriteRaw conn (request flags buf), Event.Close conn])
          conn (request flags buf) (by simp)
        rw [hnil] at hm
        cases hm
      · rw [hsrc] at hsrc₁
        cases hsrc₁
        rw [hparse] at hparse₁
        cases hparse₁
        rcases hcase with ⟨hf, -, -⟩ | ⟨-, hw, -⟩
        · rw [hov] at hf
          cases hf
        · rw [hwrite] at hw
          cases hw
          exact hreqs
    · intro conn₁ req hreq
      obtain ⟨_, content₁, p₁, bytes, -, hsrc₁, hparse₁, hr, hcase⟩ :=
        run_writeRaw_mem w flags conn₁ req hreq
      rw [hsrc] at hsrc₁
      cases hsrc₁
      rw [hparse] at hparse₁
      cases hparse₁
      rcases hcase with ⟨hf, -, -⟩ | ⟨-, hw, -⟩
      · rw [hov] at hf
        cases hf
      · exact ⟨bytes, hw, by simp [hr, request]⟩

/-- C4, at a concrete input: the empty profile captured at time 5 is encoded
with the clock reading 77. -/
theorem run_override_timestamp_witness :
    Event.ProfileWrite { emptyProfile with TimeNanos := 77 } ∈ (run demoWorld overrideFlags).1
      ∧ ({ emptyProfile with TimeNanos := 77 } : Profile).TimeNanos = demoWorld.now
      ∧ writeRawRequests (run demoWorld overrideFlags).1 = [request overrideFlags [77]] :=
  ⟨by decide,
    ((run_override_timestamp demoWorld overrideFlags
        [.ReadFile (str "/tok"), .Dial demoConn.target demoConn.opts] demoConn [1, 2, 3]
        emptyProfile (by decide) (by decide) (by decide) (by decide)).2
      { emptyProfile with TimeNanos := 77 } (by decide)).1,
    ((run_override_timestamp demoWorld overrideFlags
        [.ReadFile (str "/tok"), .Dial demoConn.target demoConn.opts] demoConn [1, 2, 3]
        emptyProfile (by decide) (by decide) (by decide) (by decide)).2
      { emptyProfile with TimeNanos := 77 } (by decide)).2.2.2.2.2.2.2.2.2.2.2.2.2.1
      [77] (by decide)⟩

/-- C5: when the timestamp is overridden and the bytes read from the profile
source are not a well-formed profile (the decoder returns an error), the upload
task returns that error wrapped with the context `parse pprof profile` and
issues no `WriteRaw` request: its last calls are the decoder and the close of
the connection. -/
theorem run_malformed_override (w : World) (flags : flags) (tr : List Event)
    (conn : ClientConn) (content : GoString) (err : GoError)
    (_hov : flags.OverrideTimestamp = true)
    (hconn : grpcConn w flags.RemoteStore = (tr, .ok conn))
    (hsrc : sourceResult w flags = .ok content)
    (hparse : w.parseData content = .error err) :
    (run w flags).2 = some (Errorf (str "parse pprof profile: ") err)
      ∧ (run w flags).2.map GoError.Error = some (str "parse pprof profile: " ++ err.Error)
      ∧ (run w flags).1 = tr ++ [sourceCall flags, .ParseData content, .Close conn]
      ∧ writeRawRequests (run w flags).1 = []
      ∧ (∀ conn₁ req, Event.WriteRaw conn₁ req ∉ (run w flags).1) := by
  have hrun := run_parse_error w flags tr conn content err hconn hsrc hparse
  have hnil : writeRawRequests (run w flags).1 = [] := by
    rcases run_requests w flags with hnil | ⟨_, _, content₁, _, _, _, hsrc₁, hparse₁, _, _⟩
    · exact hnil
    · rw [hsrc] at hsrc₁
      cases hsrc₁
      rw [hparse] at hparse₁
      cases hparse₁
  refine ⟨by rw [hrun], by rw [hrun]; simp [Errorf, GoError.Error], by rw [hrun], hnil, ?_⟩
  intro conn₁ req hmem
  have := mem_writeRawRequests _ conn₁ req hmem
  rw [hnil] at this
  cases this

/-- C5, at a concrete input: the file `/bad` does not decode. -/
theorem run_malformed_override_witness :
    (run demoWorld badOverrideFlags).2
        = some (Errorf (str "parse pprof profile: ")
            (.external (str "unrecognized profile format")))
      ∧ writeRawRequests (run demoWorld badOverrideFlags).1 = [] :=
  ⟨(run_malformed_override demoWorld badOverrideFlags
      [.ReadFile (str "/tok"), .Dial demoConn.target demoConn.opts] demoConn [9, 9]
      (.external (str "unrecognized profile format"))
      (by decide) (by decide) (by decide) (by decide)).1,
    by decide⟩

/-- C6, as stated, fails: with the timestamp kept, the bytes of the file `/bad`
are read, handed to the decoder, and the upload task ends with the error
`parse pprof profile: ...` without issuing a `WriteRaw` request. -/
theorem run_malformed_keep_fails :
    badFlags.OverrideTimestamp = false
      ∧ badFlags.Path = str "/bad"
      ∧ demoWorld.readFile (str "/bad") = .ok [9, 9]
      ∧ demoWorld.parseData [9, 9] = .error (.external (str "unrecognized profile format"))
      ∧ run demoWorld badFlags
        = ([.ReadFile (str "/tok"), .Dial demoConn.target demoConn.opts,
            .ReadFile (str "/bad"), .ParseData [9, 9], .Close demoConn],
          some (Errorf (str "parse pprof profile: ")
            (.external (str "unrecognized profile format"))))
      ∧ writeRawRequests (run demoWorld badFlags).1 = [] := by
  decide

/-- C6, amended: with the timestamp kept, the bytes read from the profile source
are handed to the decoder and nothing is encoded.  When they decode, the upload
task does not fail before the uploader and issues exactly one request, whose
sample holds exactly the bytes read; when they do not decode, the task returns
the decoder error wrapped with `parse pprof profile` and issues no request. -/
theorem run_keep_timestamp (w : World) (flags : flags) (tr : List Event)
    (conn : ClientConn) (content : GoString)
    (hov : flags.OverrideTimestamp = false)
    (hconn : grpcConn w flags.RemoteStore = (tr, .ok conn))
    (hsrc : sourceResult w flags = .ok content) :
    Event.ParseData content ∈ (run w flags).1
      ∧ (∀ p, w.parseData content = .ok p →
          run w flags
              = (tr ++ [sourceCall flags, .ParseData content,
                  .WriteRaw conn (request flags content), .Close conn],
                writeRawError w conn (request flags content))
            ∧ writeRawRequests (run w flags).1 = [request flags content]
            ∧ (request flags content).Series.map
                (fun s => s.Samples.map RawSample.RawProfile) = [[content]]
            ∧ ∀ q, Event.ProfileWrite q ∉ (run w flags).1)
      ∧ (∀ err, w.parseData content = .error err →
          run w flags
              = (tr ++ [sourceCall flags, .ParseData content, .Close conn],
                some (Errorf (str "parse pprof profile: ") err))
            ∧ writeRawRequests (run w flags).1 = []) := by
  have htr : ∀ q, Event.ProfileWrite q ∉ tr := by
    intro q hq
    rcases grpcConn_calls w flags.RemoteStore _ (by rw [hconn]; exact hq) with
      ⟨_, h⟩ | ⟨_, _, h⟩ <;> cases h
  have hsc : ∀ q, Event.ProfileWrite q ≠ sourceCall flags := by
    intro q
    unfold sourceCall
    split <;> simp
  have hreqs : ∀ p, w.parseData content = .ok p →
      writeRawRequests (run w flags).1 = [request flags content] := by
    intro p hparse
    rcases run_requests w flags with hnil
      | ⟨_, _, content₁, _, bytes, _, hsrc₁, _, hcase, hreqs⟩
    · rw [run_keep w flags tr conn content p hconn hsrc hparse hov] at hnil
      have hm := mem_writeRawRequests
        (tr ++ [sourceCall flags, Event.ParseData content,
          Event.WriteRaw conn (request flags content), Event.Close conn])
        conn (request flags content) (by simp)
      rw [hnil] at hm
      cases hm
    · rw [hsrc] at hsrc₁
      cases hsrc₁
      rcases hcase with ⟨-, hb, -⟩ | ⟨ht, -, -⟩
      · rw [hb] at hreqs
        exact hreqs
      · rw [hov] at ht
        cases ht
  have hnil : ∀ err, w.parseData content = .error err →
      writeRawRequests (run w flags).1 = [] := by
    intro err hparse
    rcases run_requests w flags with hnil | ⟨_, _, content₁, _, _, _, hsrc₁, hparse₁, _, _⟩
    · exact hnil
    · rw [hsrc] at hsrc₁
      cases hsrc₁
      rw [hparse] at hparse₁
      cases hparse₁
  refine ⟨?_, ?_, ?_⟩
  · rcases hparse : w.parseData content with err | p
    · rw [run_parse_error w flags tr conn content err hconn hsrc hparse]
      simp
    · rw [run_keep w flags tr conn content p hconn hsrc hparse hov]
      simp
  · intro p hparse
    have hrun := run_keep w flags tr conn content p hconn hsrc hparse hov
    refine ⟨hrun, hreqs p hparse, by simp [request], ?_⟩
    intro q hq
    rw [hrun] at hq
    simp [htr, hsc] at hq
  · intro err hparse
    exact ⟨run_parse_error w flags tr conn content err hconn hsrc hparse, hnil err hparse⟩

/-- C6 amended, at a concrete input: the three bytes of standard input decode
and are sent as they are. -/
theorem run_keep_timestamp_witness :
    Event.ParseData [1, 2, 3] ∈ (run demoWorld demoFlags).1
      ∧ writeRawRequests (run demoWorld demoFlags).1 = [request demoFlags [1, 2, 3]] :=
  ⟨(run_keep_timestamp demoWorld demoFlags
      [.ReadFile (str "/tok"), .Dial demoConn.target demoConn.opts] demoConn [1, 2, 3]
      (by decide) (by decide) (by decide)).1,
    ((run_keep_timestamp demoWorld demoFlags
      [.ReadFile (str "/tok"), .Dial demoConn.target demoConn.opts] demoConn [1, 2, 3]
      (by decide) (by decide) (by decide)).2.1 emptyProfile (by decide)).2.1⟩

end ParcaPush
